import Mathlib

/-!
Verification of the mizuho-algolia sync service: a shallow embedding of the
orphan-deletion reconciler (src/lib/algolia/client.js), the sync concurrency
guard (cron deduplication + in-flight locks, src/lib/algolia/indexer.js) and
the outbound request scheduler / rate limiter (src/lib/webflow/client.js),
together with proofs about their behaviour.
-/

namespace MizuhoAlgolia

/-! ## Orphan-deletion reconciler (`safeDeleteOrphaned`, src/lib/algolia/client.js) -/

/-- Result object returned by the non-aborting paths of `safeDeleteOrphaned`.
`deletedIds` records exactly which object IDs were passed to
`index.deleteObjects` (empty on the early no-orphan return). -/
structure SafeDeleteResult where
  deletedIds : List String
  total : Nat
  orphaned : Nat
  safetyCheckPassed : Bool
deriving DecidableEq, Repr

/-- Counts carried by the `SAFETY THRESHOLD EXCEEDED` error thrown by
`safeDeleteOrphaned`. -/
structure ThresholdError where
  orphanedCount : Nat
  totalInAlgolia : Nat
deriving DecidableEq, Repr

/-- Orphaned IDs: present in Algolia but absent from the Webflow source of
truth (`algoliaIDs.filter(id => !webflowIDSet.has(id))`). -/
def orphanedOf (webflowIDs algoliaIDs : List String) : List String :=
  algoliaIDs.filter (fun id => !(webflowIDs.contains id))

/-- Embedding of `safeDeleteOrphaned(webflowIDs, algoliaIDs, options)` on the
`dryRun = false` path: compute the orphan set; return an empty success when
there are no orphans; throw a `ThresholdError` when the deletion fraction
strictly exceeds `safetyThreshold`; otherwise delete exactly the orphan set. -/
def safeDeleteOrphaned (webflowIDs algoliaIDs : List String) (safetyThreshold : ℚ) :
    Except ThresholdError SafeDeleteResult :=
  let orphanedIDs := orphanedOf webflowIDs algoliaIDs
  if orphanedIDs.length = 0 then
    Except.ok { deletedIds := [], total := algoliaIDs.length, orphaned := 0,
                safetyCheckPassed := true }
  else
    let deletionPercentage : ℚ := (orphanedIDs.length : ℚ) / (algoliaIDs.length : ℚ)
    if deletionPercentage > safetyThreshold then
      Except.error { orphanedCount := orphanedIDs.length, totalInAlgolia := algoliaIDs.length }
    else
      Except.ok { deletedIds := orphanedIDs, total := algoliaIDs.length,
                  orphaned := orphanedIDs.length, safetyCheckPassed := true }

/-- Claim C1: for every call to `safeDeleteOrphaned` with non-empty
`algoliaIDs` (the indexed IDs) and a non-negative threshold, if the fraction
of orphans strictly exceeds the threshold the call aborts with a distinct
threshold error carrying the orphan and index counts (deleting nothing), and
if the fraction is at most the threshold it succeeds deleting exactly the
orphan set. -/
theorem safeDeleteOrphaned_safety (webflowIDs algoliaIDs : List String)
    (t : ℚ) (hne : algoliaIDs ≠ []) (ht : 0 ≤ t) :
    ((orphanedOf webflowIDs algoliaIDs).length / (algoliaIDs.length : ℚ) > t →
      safeDeleteOrphaned webflowIDs algoliaIDs t =
        Except.error { orphanedCount := (orphanedOf webflowIDs algoliaIDs).length,
                       totalInAlgolia := algoliaIDs.length }) ∧
    ((orphanedOf webflowIDs algoliaIDs).length / (algoliaIDs.length : ℚ) ≤ t →
      safeDeleteOrphaned webflowIDs algoliaIDs t =
        Except.ok { deletedIds := orphanedOf webflowIDs algoliaIDs,
                    total := algoliaIDs.length,
                    orphaned := (orphanedOf webflowIDs algoliaIDs).length,
                    safetyCheckPassed := true }) := by
  constructor
  · intro hgt
    by_cases h0 : (orphanedOf webflowIDs algoliaIDs).length = 0
    · rw [h0] at hgt
      norm_num at hgt
      linarith
    · simp only [safeDeleteOrphaned, if_neg h0, if_pos hgt]
  · intro hle
    by_cases h0 : (orphanedOf webflowIDs algoliaIDs).length = 0
    · have hnil : orphanedOf webflowIDs algoliaIDs = [] := List.length_eq_zero.mp h0
      simp [safeDeleteOrphaned, if_pos h0, hnil, h0]
    · simp only [safeDeleteOrphaned, if_neg h0, if_neg (not_lt.mpr hle)]

/-- Witness for C1: 1 orphan out of 2 indexed IDs with threshold `3/5`
(fraction `1/2 ≤ 3/5`) deletes exactly that orphan and does not abort. -/
theorem safeDeleteOrphaned_safety_witness :
    safeDeleteOrphaned ["a"] ["a", "b"] (3/5) =
      Except.ok { deletedIds := ["b"], total := 2, orphaned := 1,
                  safetyCheckPassed := true } := by
  have horph : orphanedOf ["a"] ["a", "b"] = ["b"] := by decide
  have h := (safeDeleteOrphaned_safety ["a"] ["a", "b"] (3/5)
      (by decide) (by norm_num)).2 (by rw [horph]; norm_num)
  rw [horph] at h
  simpa using h

/-! ## Sync concurrency guard (src/lib/algolia/indexer.js)

The in-flight lock set `activeSyncs` is a JS `Set` of sync identifiers; the
cron execution ledger `cronExecutions` is a JS `Map` from cron ID to
timestamp (milliseconds). Both are embedded as insertion-ordered lists. -/

/-- In-memory set of currently running sync identifiers (`this.activeSyncs`). -/
abbrev ActiveSyncSet := List String

/-- Embedding of `isSyncInProgress(syncId)`: membership test. -/
def isSyncInProgress (syncId : String) (s : ActiveSyncSet) : Bool :=
  s.contains syncId

/-- Embedding of `startSync(syncId)`: `Set.add`, a no-op when already present. -/
def startSync (syncId : String) (s : ActiveSyncSet) : ActiveSyncSet :=
  if s.contains syncId then s else s ++ [syncId]

/-- Embedding of `endSync(syncId)`: `Set.delete`, unconditional removal. -/
def endSync (syncId : String) (s : ActiveSyncSet) : ActiveSyncSet :=
  s.erase syncId

/-- Acquisition pattern used by every guarded entry point of the indexer:
check membership with `isSyncInProgress`, then insert with `startSync`
(the spec calls this composite `tryAcquire`). -/
def tryAcquire (syncId : String) (s : ActiveSyncSet) : Bool × ActiveSyncSet :=
  if isSyncInProgress syncId s then (false, s) else (true, startSync syncId s)

/-- Cron execution ledger (`this.cronExecutions`): insertion-ordered pairs of
cron ID and recording timestamp in milliseconds. -/
structure CronLedger where
  entries : List (String × Int)
deriving DecidableEq, Repr

/-- Eviction pass of `isDuplicateCronExecution`: delete every entry whose
timestamp is strictly older than two hours (7200000 ms) before `now`. -/
def evictOld (now : Int) (entries : List (String × Int)) : List (String × Int) :=
  entries.filter (fun e => !(decide (e.2 < now - 7200000)))

/-- Embedding of `isDuplicateCronExecution(cronId)`: a falsy `cronId` returns
false untouched; otherwise evict stale entries, answer membership, and record
a fresh ID with the current time. -/
def isDuplicateCronExecution (cronId : Option String) (now : Int) (ledger : CronLedger) :
    Bool × CronLedger :=
  match cronId with
  | none => (false, ledger)
  | some id =>
    let entries := evictOld now ledger.entries
    if entries.any (fun e => e.1 = id) then
      (true, ⟨entries⟩)
    else
      (false, ⟨entries ++ [(id, now)]⟩)

/-- Timestamp stored in the ledger for a given cron ID, if any
(`Map.get` on `cronExecutions`). -/
def cronTimestamp (id : String) (ledger : CronLedger) : Option Int :=
  (ledger.entries.find? (fun e => e.1 = id)).map (fun e => e.2)

/-! ### Models of the guarded sync operations

The fetch / transform / index collaborators are external to the three
mechanisms under specification, so each operation is parameterised by the
outcomes of those calls (`Except.error` = the collaborator threw). Items and
pages are represented by their prepared `objectID` strings, field mapping
being out of scope. -/

/-- Failure modes a sync operation can propagate to its caller. -/
inductive SyncError where
  | thresholdExceeded (orphanedCount totalInAlgolia : Nat)
  | alreadyInProgress (region : String)
  | fetchFailed (msg : String)
  | indexFailed (msg : String)
deriving DecidableEq, Repr

/-- Shapes of the result objects the sync operations return on non-throwing
paths (success / duplicate-cron skip / lock skip / empty source). -/
inductive SyncOutcome where
  | duplicateSkip
  | inProgressSkip
  | noItems
  | completed (indexed : Nat)
  | completedStatic (indexed deleted : Nat)
deriving DecidableEq, Repr

/-- Collaborator outcomes consumed by `syncSpecificCollection`:
`fetchItems` is `cmsFetcher.fetchSpecificCollection` (item IDs),
`algoliaItemIDs` is `getAllObjectIDsByCollection`, and `indexedCount` is the
`indexObjects` result. -/
structure CollectionSyncEnv where
  fetchItems : Except String (List String)
  algoliaItemIDs : Except String (List String)
  indexedCount : Except String Nat
deriving Repr

/-- Embedding of `syncSpecificCollection(collectionSlug, options)` on the
`dryRun = false` path. The deletion-sync step calls `safeDeleteOrphaned`
with threshold 0.6 inside its own try/catch whose catch only logs, so its
outcome (`deletionAttempt`) never influences the returned value; the final
component is the lock set after the `finally { endSync }`. -/
def syncSpecificCollection (collectionSlug : String) (cronId : Option String)
    (now : Int) (env : CollectionSyncEnv) (ledger : CronLedger) (active : ActiveSyncSet) :
    Except SyncError SyncOutcome × CronLedger × ActiveSyncSet :=
  let dup := isDuplicateCronExecution cronId now ledger
  if dup.1 then (Except.ok SyncOutcome.duplicateSkip, dup.2, active)
  else if isSyncInProgress collectionSlug active then
    (Except.ok SyncOutcome.inProgressSkip, dup.2, active)
  else
    let active1 := startSync collectionSlug active
    let result : Except SyncError SyncOutcome :=
      match env.fetchItems with
      | Except.error msg => Except.error (SyncError.fetchFailed msg)
      | Except.ok items =>
        if items.length = 0 then Except.ok SyncOutcome.noItems
        else
          let webflowItemIDs := items.map (fun i => "cms_" ++ i)
          let deletionAttempt : Except SyncError Nat :=
            match env.algoliaItemIDs with
            | Except.error msg => Except.error (SyncError.fetchFailed msg)
            | Except.ok algoliaItemIDs =>
              match safeDeleteOrphaned webflowItemIDs algoliaItemIDs (6/10) with
              | Except.error e =>
                  Except.error (SyncError.thresholdExceeded e.orphanedCount e.totalInAlgolia)
              | Except.ok r => Except.ok r.deletedIds.length
          let _ := deletionAttempt
          match env.indexedCount with
          | Except.error msg => Except.error (SyncError.indexFailed msg)
          | Except.ok n => Except.ok (SyncOutcome.completed n)
    (result, dup.2, endSync collectionSlug active1)

/-- Collaborator outcomes consumed by `syncStaticPagesOnly`: `fetchPages` is
`staticPagesFetcher.fetchAllPages` (represented by the prepared objectIDs),
`indexedCount` the `indexObjects` result, and `algoliaObjectIDs` is
`getAllObjectIDsByType('static-page')`. -/
structure StaticSyncEnv where
  fetchPages : Except String (List String)
  indexedCount : Except String Nat
  algoliaObjectIDs : Except String (List String)
deriving Repr

/-- Embedding of `syncStaticPagesOnly(options)` on the `dryRun = false` path.
Unlike `syncSpecificCollection`, the orphan-deletion step here is NOT wrapped
in an inner try/catch, so a threshold failure propagates through the outer
catch (which rethrows) after the `finally { endSync }`. -/
def syncStaticPagesOnly (cronId : Option String) (now : Int) (env : StaticSyncEnv)
    (ledger : CronLedger) (active : ActiveSyncSet) :
    Except SyncError SyncOutcome × CronLedger × ActiveSyncSet :=
  let syncId := "static-pages"
  let dup := isDuplicateCronExecution cronId now ledger
  if dup.1 then (Except.ok SyncOutcome.duplicateSkip, dup.2, active)
  else if isSyncInProgress syncId active then
    (Except.ok SyncOutcome.inProgressSkip, dup.2, active)
  else
    let active1 := startSync syncId active
    let result : Except SyncError SyncOutcome :=
      match env.fetchPages with
      | Except.error msg => Except.error (SyncError.fetchFailed msg)
      | Except.ok pages =>
        if pages.length = 0 then Except.ok SyncOutcome.noItems
        else
          match env.indexedCount with
          | Except.error msg => Except.error (SyncError.indexFailed msg)
          | Except.ok n =>
            match env.algoliaObjectIDs with
            | Except.error msg => Except.error (SyncError.fetchFailed msg)
            | Except.ok algoliaObjectIDs =>
              match safeDeleteOrphaned pages algoliaObjectIDs (6/10) with
              | Except.error e =>
                  Except.error (SyncError.thresholdExceeded e.orphanedCount e.totalInAlgolia)
              | Except.ok r => Except.ok (SyncOutcome.completedStatic n r.deletedIds.length)
    (result, dup.2, endSync syncId active1)

/-- Collaborator outcomes consumed by `performFullSync` on the default
options path (`includeStatic`, `includeCMS` true, `dryRun` false). -/
structure FullSyncEnv where
  staticObjects : Except String (List String)
  cmsObjects : Except String (List String)
  indexedCount : Except String Nat
deriving Repr

/-- Embedding of `performFullSync(options)` with default options. Lock
contention THROWS (`Full sync already in progress`) instead of returning a
skip result; on the acquired path the region-specific lock is released in
the `finally` on every exit. -/
def performFullSync (region : Option String) (env : FullSyncEnv) (active : ActiveSyncSet) :
    Except SyncError SyncOutcome × ActiveSyncSet :=
  let syncId := "full-sync-" ++ region.getD "all"
  if isSyncInProgress syncId active then
    (Except.error (SyncError.alreadyInProgress (region.getD "all")), active)
  else
    let active1 := startSync syncId active
    let result : Except SyncError SyncOutcome :=
      match env.staticObjects with
      | Except.error msg => Except.error (SyncError.fetchFailed msg)
      | Except.ok _ =>
        match env.cmsObjects with
        | Except.error msg => Except.error (SyncError.fetchFailed msg)
        | Except.ok _ =>
          match env.indexedCount with
          | Except.error msg => Except.error (SyncError.indexFailed msg)
          | Except.ok n => Except.ok (SyncOutcome.completed n)
    (result, endSync syncId active1)

/-! ### Lemmas about the lock set and the ledger -/

theorem not_mem_of_contains_false {l : List String} {a : String}
    (h : l.contains a = false) : a ∉ l := by
  simpa using h

theorem mem_of_contains_true {l : List String} {a : String}
    (h : l.contains a = true) : a ∈ l := by
  simpa using h

theorem endSync_startSync (s : String) (st : ActiveSyncSet)
    (h : st.contains s = false) : endSync s (startSync s st) = st := by
  have hnm : s ∉ st := not_mem_of_contains_false h
  rw [startSync, if_neg (by simp [hnm])]
  rw [endSync, List.erase_append_right _ hnm, List.erase_cons_head, List.append_nil]

theorem evictOld_keys {now : Int} {l : List (String × Int)} {id : String}
    (h : ∀ e ∈ l, e.1 ≠ id) : ∀ e ∈ evictOld now l, e.1 ≠ id :=
  fun e he => h e (List.mem_of_mem_filter he)

theorem any_key_eq_false {l : List (String × Int)} {id : String}
    (h : ∀ e ∈ l, e.1 ≠ id) : (l.any (fun e => e.1 = id)) = false := by
  simp only [List.any_eq_false, decide_eq_true_eq]
  exact h

theorem find?_key_eq_none {l : List (String × Int)} {id : String}
    (h : ∀ e ∈ l, e.1 ≠ id) : l.find? (fun e => e.1 = id) = none := by
  rw [List.find?_eq_none]
  intro e he
  simp only [decide_eq_true_eq]
  exact h e he

/-- Claim C4: a falsy execution ID always yields false and leaves the ledger
untouched; the first call with a fresh non-falsy ID returns false and records
it with the current time; a second call within the two-hour retention window
returns true without mutating the stored timestamp; a third call after the
window has elapsed finds the entry lazily evicted and returns false again. -/
theorem isDuplicateCronExecution_spec (id : String) (t1 t2 t3 : Int) (st : CronLedger)
    (hfresh : ∀ e ∈ st.entries, e.1 ≠ id)
    (hwin : t2 - t1 ≤ 7200000) (hexp : t3 - t1 > 7200000) :
    (∀ (now : Int) (ledger : CronLedger),
        isDuplicateCronExecution none now ledger = (false, ledger)) ∧
    (isDuplicateCronExecution (some id) t1 st).1 = false ∧
    cronTimestamp id (isDuplicateCronExecution (some id) t1 st).2 = some t1 ∧
    (isDuplicateCronExecution (some id) t2
        (isDuplicateCronExecution (some id) t1 st).2).1 = true ∧
    cronTimestamp id (isDuplicateCronExecution (some id) t2
        (isDuplicateCronExecution (some id) t1 st).2).2 = some t1 ∧
    (isDuplicateCronExecution (some id) t3
        (isDuplicateCronExecution (some id) t2
          (isDuplicateCronExecution (some id) t1 st).2).2).1 = false := by
  have h1 : isDuplicateCronExecution (some id) t1 st =
      (false, ⟨evictOld t1 st.entries ++ [(id, t1)]⟩) := by
    simp [isDuplicateCronExecution, any_key_eq_false (evictOld_keys hfresh)]
  have hkeep : evictOld t2 (evictOld t1 st.entries ++ [(id, t1)]) =
      evictOld t2 (evictOld t1 st.entries) ++ [(id, t1)] := by
    simp [evictOld, List.filter_append, show ¬(t1 < t2 - 7200000) by omega]
  have h2 : isDuplicateCronExecution (some id) t2
      (isDuplicateCronExecution (some id) t1 st).2 =
      (true, ⟨evictOld t2 (evictOld t1 st.entries) ++ [(id, t1)]⟩) := by
    rw [h1]
    simp [isDuplicateCronExecution, hkeep]
  have hdrop : evictOld t3 (evictOld t2 (evictOld t1 st.entries) ++ [(id, t1)]) =
      evictOld t3 (evictOld t2 (evictOld t1 st.entries)) := by
    simp [evictOld, List.filter_append, show t1 < t3 - 7200000 by omega]
  refine ⟨fun now ledger => rfl, by rw [h1], ?_, by rw [h2], ?_, ?_⟩
  · rw [h1]
    simp [cronTimestamp, find?_key_eq_none (evictOld_keys hfresh)]
  · rw [h2]
    simp [cronTimestamp, find?_key_eq_none (evictOld_keys (evictOld_keys hfresh))]
  · rw [h2]
    simp only [isDuplicateCronExecution, hdrop]
    simp [any_key_eq_false (evictOld_keys (evictOld_keys (evictOld_keys hfresh)))]

/-- Witness for C4 at a concrete timeline: fresh ledger, first call at time 0,
second at 7200000 (exactly the window edge, still retained), third at
7200001 (expired). -/
theorem isDuplicateCronExecution_spec_witness :
    (isDuplicateCronExecution (some "cron-1") 0 ⟨[]⟩).1 = false ∧
    (isDuplicateCronExecution (some "cron-1") 7200000
        (isDuplicateCronExecution (some "cron-1") 0 ⟨[]⟩).2).1 = true ∧
    (isDuplicateCronExecution (some "cron-1") 7200001
        (isDuplicateCronExecution (some "cron-1") 7200000
          (isDuplicateCronExecution (some "cron-1") 0 ⟨[]⟩).2).2).1 = false := by
  have h := isDuplicateCronExecution_spec "cron-1" 0 7200000 7200001 ⟨[]⟩
      (by simp) (by omega) (by omega)
  exact ⟨h.2.1, h.2.2.2.1, h.2.2.2.2.2⟩

/-- Claim C3: on an acquirable identifier, `tryAcquire` answers true then
false, and true again after a release; and each guarded sync operation that
acquired its identifier removes it from the lock set on every exit path
(the collaborator outcomes `env` range over success, failure and the empty
early-return), so a subsequent `tryAcquire` succeeds. -/
theorem lockDiscipline :
    (∀ (s : String) (st : ActiveSyncSet), st.contains s = false →
      (tryAcquire s st).1 = true ∧
      (tryAcquire s (tryAcquire s st).2).1 = false ∧
      (tryAcquire s (endSync s (tryAcquire s st).2)).1 = true) ∧
    (∀ (slug : String) (cronId : Option String) (now : Int) (env : CollectionSyncEnv)
        (ledger : CronLedger) (st : ActiveSyncSet), st.contains slug = false →
      (isDuplicateCronExecution cronId now ledger).1 = false →
      (syncSpecificCollection slug cronId now env ledger st).2.2 = st ∧
      (tryAcquire slug (syncSpecificCollection slug cronId now env ledger st).2.2).1 = true) ∧
    (∀ (cronId : Option String) (now : Int) (env : StaticSyncEnv)
        (ledger : CronLedger) (st : ActiveSyncSet), st.contains "static-pages" = false →
      (isDuplicateCronExecution cronId now ledger).1 = false →
      (syncStaticPagesOnly cronId now env ledger st).2.2 = st) ∧
    (∀ (region : Option String) (env : FullSyncEnv) (st : ActiveSyncSet),
      st.contains ("full-sync-" ++ region.getD "all") = false →
      (performFullSync region env st).2 = st) := by
  refine ⟨?_, ?_, ?_, ?_⟩
  · intro s st h
    have hnm : s ∉ st := not_mem_of_contains_false h
    refine ⟨by simp [tryAcquire, isSyncInProgress, hnm], ?_, ?_⟩
    · simp [tryAcquire, isSyncInProgress, hnm, startSync]
    · have he : endSync s (st ++ [s]) = st := by
        rw [endSync, List.erase_append_right _ hnm, List.erase_cons_head,
          List.append_nil]
      simp [tryAcquire, isSyncInProgress, hnm, startSync, he]
  · intro slug cronId now env ledger st hactive hdup
    have hnm : slug ∉ st := not_mem_of_contains_false hactive
    have hfin : (syncSpecificCollection slug cronId now env ledger st).2.2 = st := by
      simp [syncSpecificCollection, hdup, isSyncInProgress, hnm,
        endSync_startSync slug st hactive]
    exact ⟨hfin, by simp [tryAcquire, isSyncInProgress, hfin, hnm]⟩
  · intro cronId now env ledger st hactive hdup
    have hnm : "static-pages" ∉ st := not_mem_of_contains_false hactive
    simp [syncStaticPagesOnly, hdup, isSyncInProgress, hnm,
      endSync_startSync _ st hactive]
  · intro region env st hactive
    have hnm : ("full-sync-" ++ region.getD "all") ∉ st :=
      not_mem_of_contains_false hactive
    simp [performFullSync, isSyncInProgress, hnm,
      endSync_startSync _ st hactive]

/-- Witness for C3 at concrete inputs: empty lock set, each operation run
with trivial collaborator outcomes. -/
theorem lockDiscipline_witness :
    (tryAcquire "col-a" []).1 = true ∧
    (tryAcquire "col-a" (tryAcquire "col-a" []).2).1 = false ∧
    (syncSpecificCollection "col-a" none 0
        ⟨Except.ok [], Except.ok [], Except.ok 0⟩ ⟨[]⟩ []).2.2 = [] ∧
    (syncStaticPagesOnly none 0
        ⟨Except.ok [], Except.ok 0, Except.ok []⟩ ⟨[]⟩ []).2.2 = [] ∧
    (performFullSync none ⟨Except.ok [], Except.ok [], Except.ok 0⟩ []).2 = [] := by
  refine ⟨(lockDiscipline.1 "col-a" [] rfl).1,
    (lockDiscipline.1 "col-a" [] rfl).2.1,
    (lockDiscipline.2.1 "col-a" none 0 ⟨Except.ok [], Except.ok [], Except.ok 0⟩
      ⟨[]⟩ [] rfl rfl).1,
    lockDiscipline.2.2.1 none 0 ⟨Except.ok [], Except.ok 0, Except.ok []⟩ ⟨[]⟩ [] rfl rfl,
    lockDiscipline.2.2.2 none ⟨Except.ok [], Except.ok [], Except.ok 0⟩ [] rfl⟩

/-- Counterexample to claim C5 as stated: with the `full-sync-all` lock held,
`performFullSync` raises an `alreadyInProgress` error rather than returning a
skipped result. -/
theorem performFullSync_contention_raises :
    (performFullSync none ⟨Except.ok [], Except.ok [], Except.ok 0⟩
        ["full-sync-all"]).1 =
      Except.error (SyncError.alreadyInProgress "all") := by
  rfl

/-- Claim C5 (amended): a sync invoked while its identifier is held
short-circuits with an `inProgressSkip` result for `syncSpecificCollection`
and `syncStaticPagesOnly` (no error, lock set untouched), while
`performFullSync` instead raises an `alreadyInProgress` error. -/
theorem lockContention_spec :
    (∀ (slug : String) (cronId : Option String) (now : Int) (env : CollectionSyncEnv)
        (ledger : CronLedger) (st : ActiveSyncSet),
      (isDuplicateCronExecution cronId now ledger).1 = false →
      st.contains slug = true →
      (syncSpecificCollection slug cronId now env ledger st).1 =
        Except.ok SyncOutcome.inProgressSkip ∧
      (syncSpecificCollection slug cronId now env ledger st).2.2 = st) ∧
    (∀ (cronId : Option String) (now : Int) (env : StaticSyncEnv)
        (ledger : CronLedger) (st : ActiveSyncSet),
      (isDuplicateCronExecution cronId now ledger).1 = false →
      st.contains "static-pages" = true →
      (syncStaticPagesOnly cronId now env ledger st).1 =
        Except.ok SyncOutcome.inProgressSkip) ∧
    (∀ (region : Option String) (env : FullSyncEnv) (st : ActiveSyncSet),
      st.contains ("full-sync-" ++ region.getD "all") = true →
      (performFullSync region env st).1 =
        Except.error (SyncError.alreadyInProgress (region.getD "all"))) := by
  refine ⟨?_, ?_, ?_⟩
  · intro slug cronId now env ledger st hdup hactive
    have hm : slug ∈ st := mem_of_contains_true hactive
    constructor <;> simp [syncSpecificCollection, hdup, isSyncInProgress, hm]
  · intro cronId now env ledger st hdup hactive
    have hm : "static-pages" ∈ st := mem_of_contains_true hactive
    simp [syncStaticPagesOnly, hdup, isSyncInProgress, hm]
  · intro region env st hactive
    have hm : ("full-sync-" ++ region.getD "all") ∈ st := mem_of_contains_true hactive
    simp [performFullSync, isSyncInProgress, hm]

/-- Witness for C5 (amended) at concrete held locks. -/
theorem lockContention_spec_witness :
    (syncSpecificCollection "col-b" none 0
        ⟨Except.ok [], Except.ok [], Except.ok 0⟩ ⟨[]⟩ ["col-b"]).1 =
      Except.ok SyncOutcome.inProgressSkip ∧
    (syncStaticPagesOnly none 0
        ⟨Except.ok [], Except.ok 0, Except.ok []⟩ ⟨[]⟩ ["static-pages"]).1 =
      Except.ok SyncOutcome.inProgressSkip ∧
    (performFullSync (some "emea") ⟨Except.ok [], Except.ok [], Except.ok 0⟩
        ["full-sync-emea"]).1 =
      Except.error (SyncError.alreadyInProgress "emea") := by
  refine ⟨(lockContention_spec.1 "col-b" none 0 ⟨Except.ok [], Except.ok [], Except.ok 0⟩
      ⟨[]⟩ ["col-b"] rfl (by decide)).1,
    lockContention_spec.2.1 none 0 ⟨Except.ok [], Except.ok 0, Except.ok []⟩
      ⟨[]⟩ ["static-pages"] rfl (by decide),
    lockContention_spec.2.2 (some "emea") ⟨Except.ok [], Except.ok [], Except.ok 0⟩
      ["full-sync-emea"] (by decide)⟩

/-- Counterexample to claim C2 as stated: inside `syncSpecificCollection`
the reconciler is called on `["cms_i1"]` against three indexed IDs, all
orphaned (100% > 60%), so it raises the safety-threshold failure — yet the
sync completes successfully, discarding it. -/
theorem syncSpecificCollection_swallows_threshold_failure :
    safeDeleteOrphaned ["cms_i1"] ["x", "y", "z"] (6/10) =
      Except.error { orphanedCount := 3, totalInAlgolia := 3 } ∧
    (syncSpecificCollection "team-members" none 0
        ⟨Except.ok ["i1"], Except.ok ["x", "y", "z"], Except.ok 1⟩ ⟨[]⟩ []).1 =
      Except.ok (SyncOutcome.completed 1) := by
  constructor
  · have horph : orphanedOf ["cms_i1"] ["x", "y", "z"] = ["x", "y", "z"] := by decide
    simp only [safeDeleteOrphaned, horph]
    norm_num
  · rfl

/-- Claim C2 (amended): a safety-threshold failure raised by the reconciler
propagates from `syncStaticPagesOnly`; in `syncSpecificCollection` the
deletion step is wrapped in a try/catch that only logs, so the operation
completes successfully regardless of the reconciler outcome. -/
theorem thresholdPropagation_spec :
    (∀ (cronId : Option String) (now : Int) (env : StaticSyncEnv)
        (ledger : CronLedger) (st : ActiveSyncSet) (pages : List String)
        (n : Nat) (aIds : List String) (e : ThresholdError),
      (isDuplicateCronExecution cronId now ledger).1 = false →
      st.contains "static-pages" = false →
      env.fetchPages = Except.ok pages → pages.length ≠ 0 →
      env.indexedCount = Except.ok n →
      env.algoliaObjectIDs = Except.ok aIds →
      safeDeleteOrphaned pages aIds (6/10) = Except.error e →
      (syncStaticPagesOnly cronId now env ledger st).1 =
        Except.error (SyncError.thresholdExceeded e.orphanedCount e.totalInAlgolia)) ∧
    (∀ (slug : String) (cronId : Option String) (now : Int) (env : CollectionSyncEnv)
        (ledger : CronLedger) (st : ActiveSyncSet) (items : List String) (n : Nat),
      (isDuplicateCronExecution cronId now ledger).1 = false →
      st.contains slug = false →
      env.fetchItems = Except.ok items → items.length ≠ 0 →
      env.indexedCount = Except.ok n →
      (syncSpecificCollection slug cronId now env ledger st).1 =
        Except.ok (SyncOutcome.completed n)) := by
  constructor
  · intro cronId now env ledger st pages n aIds e hdup hactive hpages hlen hn haids hdel
    have hnm : "static-pages" ∉ st := not_mem_of_contains_false hactive
    simp [syncStaticPagesOnly, hdup, isSyncInProgress, hnm, hpages, hlen, hn,
      haids, hdel]
  · intro slug cronId now env ledger st items n hdup hactive hitems hlen hn
    have hnm : slug ∉ st := not_mem_of_contains_false hactive
    simp [syncSpecificCollection, hdup, isSyncInProgress, hnm, hitems, hlen, hn]

/-- Witness for C2 (amended): concrete collaborator outcomes on both paths;
`syncStaticPagesOnly` surfaces the threshold failure, `syncSpecificCollection`
completes with the indexed count. -/
theorem thresholdPropagation_spec_witness :
    (syncStaticPagesOnly none 0
        ⟨Except.ok ["p1"], Except.ok 1, Except.ok ["q1", "q2", "q3"]⟩ ⟨[]⟩ []).1 =
      Except.error (SyncError.thresholdExceeded 3 3) ∧
    (syncSpecificCollection "col-c" none 0
        ⟨Except.ok ["j1"], Except.ok [], Except.ok 2⟩ ⟨[]⟩ []).1 =
      Except.ok (SyncOutcome.completed 2) := by
  constructor
  · exact thresholdPropagation_spec.1 none 0
      ⟨Except.ok ["p1"], Except.ok 1, Except.ok ["q1", "q2", "q3"]⟩ ⟨[]⟩ []
      ["p1"] 1 ["q1", "q2", "q3"] ⟨3, 3⟩ rfl rfl rfl (by decide) rfl rfl
      (by
        have horph : orphanedOf ["p1"] ["q1", "q2", "q3"] = ["q1", "q2", "q3"] := by decide
        simp only [safeDeleteOrphaned, horph]
        norm_num)
  · exact thresholdPropagation_spec.2 "col-c" none 0
      ⟨Except.ok ["j1"], Except.ok [], Except.ok 2⟩ ⟨[]⟩ []
      ["j1"] 2 rfl rfl rfl (by decide) rfl

/-! ## Outbound request scheduler and rate limiter (src/lib/webflow/client.js) -/

/-- Outcome of one execution of `this.client({url, ...options})` inside
`executeRequest`: success, an HTTP 429 rejection carrying the parsed
`retry-after` header, or any other failure. -/
inductive AttemptOutcome where
  | success
  | rateLimited (retryAfterHeader : Option Nat)
  | failure (msg : String)
deriving DecidableEq, Repr

/-- Terminal outcome of `executeRequest`: a resolved response, the error
thrown at the last attempt, or the undefined fall-through when the loop
body never runs (`maxRetries = 0`). -/
inductive ExecOutcome where
  | ok
  | err (last : AttemptOutcome)
  | noAttempt
deriving DecidableEq, Repr

/-- Trace of one `executeRequest` call: final outcome, number of times the
HTTP client was invoked, the sleeps performed between attempts (in ms, in
order) and the `requestsThisMinute` counter after the call. -/
structure ExecTrace where
  outcome : ExecOutcome
  executions : Nat
  waits : List Nat
  requestsThisMinute : Nat
deriving DecidableEq, Repr

/-- Effective retry delay in seconds: `parseInt(headers['retry-after']) || 60`
(a missing, unparsable or zero header falls back to 60). -/
def effectiveRetryAfter (h : Option Nat) : Nat :=
  match h with
  | none => 60
  | some k => if k = 0 then 60 else k

/-- Embedding of the retry loop of `executeRequest(url, options, maxRetries)`.
`attempts` lists the outcome each execution would produce, one entry per
budgeted attempt (its length is `maxRetries`); `attempt` is the 1-based loop
counter, `counter` the incoming `requestsThisMinute`. On a 429 with attempts
remaining the loop sleeps `retryAfter * 1000 + 2000` ms and continues; on
another failure with attempts remaining it sleeps
`min(1000 * 2^(attempt-1), 10000)` ms; at the last attempt it rethrows. -/
def executeRequestAux (counter : Nat) : Nat → List AttemptOutcome → ExecTrace
  | _, [] =>
    { outcome := ExecOutcome.noAttempt, executions := 0, waits := [],
      requestsThisMinute := counter }
  | attempt, o :: rest =>
    match o with
    | AttemptOutcome.success =>
      { outcome := ExecOutcome.ok, executions := 1, waits := [],
        requestsThisMinute := counter + 1 }
    | AttemptOutcome.rateLimited h =>
      if rest.isEmpty then
        { outcome := ExecOutcome.err (AttemptOutcome.rateLimited h), executions := 1,
          waits := [], requestsThisMinute := counter }
      else
        let waitTime := effectiveRetryAfter h * 1000 + 2000
        let r := executeRequestAux counter (attempt + 1) rest
        { outcome := r.outcome, executions := r.executions + 1,
          waits := waitTime :: r.waits, requestsThisMinute := r.requestsThisMinute }
    | AttemptOutcome.failure msg =>
      if rest.isEmpty then
        { outcome := ExecOutcome.err (AttemptOutcome.failure msg), executions := 1,
          waits := [], requestsThisMinute := counter }
      else
        let delay := min (1000 * 2 ^ (attempt - 1)) 10000
        let r := executeRequestAux counter (attempt + 1) rest
        { outcome := r.outcome, executions := r.executions + 1,
          waits := delay :: r.waits, requestsThisMinute := r.requestsThisMinute }

/-- Embedding of `executeRequest` from the first attempt. -/
def executeRequest (attempts : List AttemptOutcome) (counter : Nat) : ExecTrace :=
  executeRequestAux counter 1 attempts

/-- Rate-limit bookkeeping read from response headers
(`this.rateLimitInfo`). -/
structure RateLimitInfo where
  limit : Int
  remaining : Int
  resetTime : Option Int
  lastUpdated : Option Int
deriving DecidableEq, Repr

/-- Parsed `x-ratelimit-*` response headers (absent keys are `none`). -/
structure RateLimitHeaders where
  xRateLimitLimit : Option Int
  xRateLimitRemaining : Option Int
  xRateLimitReset : Option Int
deriving DecidableEq, Repr

/-- Process-local client state touched by the rate limiter. -/
structure ClientState where
  rateLimitInfo : RateLimitInfo
  requestsThisMinute : Nat
  minuteStartTime : Int
deriving DecidableEq, Repr

/-- Embedding of `updateRateLimitInfo(headers)`: overwrite whichever of
`limit`, `remaining`, `resetTime` the headers carry (reset seconds are
scaled to ms) and stamp `lastUpdated`; nothing else is touched. -/
def updateRateLimitInfo (headers : RateLimitHeaders) (now : Int)
    (st : ClientState) : ClientState :=
  let info := st.rateLimitInfo
  let info := match headers.xRateLimitLimit with
    | some v => { info with limit := v }
    | none => info
  let info := match headers.xRateLimitRemaining with
    | some v => { info with remaining := v }
    | none => info
  let info := match headers.xRateLimitReset with
    | some v => { info with resetTime := some (v * 1000) }
    | none => info
  { st with rateLimitInfo := { info with lastUpdated := some now } }

/-- Embedding of `shouldWaitForRateLimit()`: reset the per-minute counter if
the minute window elapsed, then answer whether `remaining` is at or below
the floored safety buffer `limit * safetyBufferPercent` or the per-minute
counter has reached `limit - safetyBuffer`. Returns the predicate together
with the (possibly reset) counter and window start. -/
def shouldWaitForRateLimit (safetyBufferPercent : ℚ) (info : RateLimitInfo)
    (requestsThisMinute : Nat) (minuteStartTime now : Int) : Bool × Nat × Int :=
  let reset := now - minuteStartTime ≥ 60000
  let counter := if reset then 0 else requestsThisMinute
  let windowStart := if reset then now else minuteStartTime
  let safetyBuffer : Int := Int.floor ((info.limit : ℚ) * safetyBufferPercent)
  let safeLimit : Int := info.limit - safetyBuffer
  (decide (info.remaining ≤ safetyBuffer) || decide ((counter : Int) ≥ safeLimit),
    counter, windowStart)

/-- Queued request item as built by `makeRequest` (represented by its URL,
priority and enqueue timestamp; default priority is 1). -/
structure QueuedRequest where
  url : String
  priority : Int
  timestamp : Nat
deriving DecidableEq, Repr

/-- Comparator used by `processQueue`:
`requestQueue.sort((a, b) => b.priority - a.priority)`, a stable descending
sort by priority, embedded as a stable merge sort over the total relation
`b.priority ≤ a.priority`. -/
def sortQueue (q : List QueuedRequest) : List QueuedRequest :=
  q.mergeSort (fun a b => decide (b.priority ≤ a.priority))

/-- One fuelled pass of the `processQueue` drain loop: each iteration
re-sorts the pending queue by descending priority and shifts the head for
execution. The fuel equals the queue length, one unit per dispatched item. -/
def drainQueueAux : Nat → List QueuedRequest → List QueuedRequest
  | 0, _ => []
  | fuel + 1, q =>
    match sortQueue q with
    | [] => []
    | x :: rest => x :: drainQueueAux fuel rest

/-- Order in which `processQueue` dispatches a pending queue when no new
items arrive mid-drain. -/
def drainQueue (q : List QueuedRequest) : List QueuedRequest :=
  drainQueueAux q.length q

/-! ### Lemmas about the scheduler -/

theorem executeRequestAux_executions_le (attempts : List AttemptOutcome) :
    ∀ (attempt counter : Nat),
      (executeRequestAux counter attempt attempts).executions ≤ attempts.length := by
  induction attempts with
  | nil =>
    intro attempt counter
    simp [executeRequestAux]
  | cons o rest ih =>
    intro attempt counter
    cases o with
    | success =>
      simp [executeRequestAux]
    | rateLimited h =>
      cases hr : rest.isEmpty with
      | true => simp [executeRequestAux, hr]
      | false =>
        simp only [executeRequestAux, hr, Bool.false_eq_true, if_false, List.length_cons]
        exact Nat.succ_le_succ (ih (attempt + 1) counter)
    | failure msg =>
      cases hr : rest.isEmpty with
      | true => simp [executeRequestAux, hr]
      | false =>
        simp only [executeRequestAux, hr, Bool.false_eq_true, if_false, List.length_cons]
        exact Nat.succ_le_succ (ih (attempt + 1) counter)

theorem executeRequestAux_all_fail (attempts : List AttemptOutcome) :
    ∀ (attempt counter : Nat), attempts ≠ [] →
      (∀ o ∈ attempts, o ≠ AttemptOutcome.success) →
      (executeRequestAux counter attempt attempts).executions = attempts.length ∧
      ∃ last, (executeRequestAux counter attempt attempts).outcome =
        ExecOutcome.err last := by
  induction attempts with
  | nil =>
    intro _ _ h _
    exact absurd rfl h
  | cons o rest ih =>
    intro attempt counter _ hfail
    have ho : o ≠ AttemptOutcome.success := hfail o (List.mem_cons_self o rest)
    cases hr : rest.isEmpty with
    | true =>
      have hrn : rest = [] := by simpa using hr
      cases o with
      | success => exact absurd rfl ho
      | rateLimited h => simp [executeRequestAux, hrn]
      | failure msg => simp [executeRequestAux, hrn]
    | false =>
      have hrn : rest ≠ [] := by simpa using hr
      have hrest := ih (attempt + 1) counter hrn
        (fun x hx => hfail x (List.mem_cons_of_mem o hx))
      cases o with
      | success => exact absurd rfl ho
      | rateLimited h =>
        simp only [executeRequestAux, hr, Bool.false_eq_true, if_false, List.length_cons]
        exact ⟨by rw [hrest.1], hrest.2⟩
      | failure msg =>
        simp only [executeRequestAux, hr, Bool.false_eq_true, if_false, List.length_cons]
        exact ⟨by rw [hrest.1], hrest.2⟩

theorem executeRequestAux_counter (attempts : List AttemptOutcome) :
    ∀ (attempt counter : Nat),
      (executeRequestAux counter attempt attempts).requestsThisMinute =
        counter + (if (executeRequestAux counter attempt attempts).outcome =
            ExecOutcome.ok then 1 else 0) := by
  induction attempts with
  | nil =>
    intro attempt counter
    simp [executeRequestAux]
  | cons o rest ih =>
    intro attempt counter
    cases o with
    | success => simp [executeRequestAux]
    | rateLimited h =>
      cases hr : rest.isEmpty with
      | true => simp [executeRequestAux, hr]
      | false =>
        simp only [executeRequestAux, hr, Bool.false_eq_true, if_false]
        exact ih (attempt + 1) counter
    | failure msg =>
      cases hr : rest.isEmpty with
      | true => simp [executeRequestAux, hr]
      | false =>
        simp only [executeRequestAux, hr, Bool.false_eq_true, if_false]
        exact ih (attempt + 1) counter

theorem queueLE_trans (a b c : QueuedRequest)
    (hab : decide (b.priority ≤ a.priority) = true)
    (hbc : decide (c.priority ≤ b.priority) = true) :
    decide (c.priority ≤ a.priority) = true := by
  simp only [decide_eq_true_eq] at *
  exact le_trans hbc hab

theorem queueLE_total (a b : QueuedRequest) :
    (decide (b.priority ≤ a.priority) || decide (a.priority ≤ b.priority)) = true := by
  simp only [Bool.or_eq_true, decide_eq_true_eq]
  exact (Int.le_total b.priority a.priority)

theorem sortQueue_sorted (q : List QueuedRequest) :
    (sortQueue q).Pairwise (fun a b => decide (b.priority ≤ a.priority) = true) :=
  List.sorted_mergeSort queueLE_trans queueLE_total q

theorem sortQueue_of_sorted {q : List QueuedRequest}
    (h : q.Pairwise (fun a b => decide (b.priority ≤ a.priority) = true)) :
    sortQueue q = q :=
  List.mergeSort_of_sorted h

theorem drainQueueAux_eq_sortQueue (fuel : Nat) :
    ∀ q : List QueuedRequest, q.length = fuel → drainQueueAux fuel q = sortQueue q := by
  induction fuel with
  | zero =>
    intro q hq
    have : q = [] := List.length_eq_zero.mp hq
    simp [this, drainQueueAux, sortQueue]
  | succ n ih =>
    intro q hq
    cases hs : sortQueue q with
    | nil =>
      have : (sortQueue q).length = q.length := by simp [sortQueue]
      rw [hs] at this
      simp at this
      omega
    | cons x rest =>
      have hlen : (sortQueue q).length = q.length := by simp [sortQueue]
      rw [hs] at hlen
      simp at hlen
      have hrest : rest.length = n := by omega
      have hsorted := sortQueue_sorted q
      rw [hs] at hsorted
      have hrs : sortQueue rest = rest := sortQueue_of_sorted hsorted.of_cons
      have := ih rest hrest
      rw [hrs] at this
      simp [drainQueueAux, hs, this]

theorem drainQueue_eq_sortQueue (q : List QueuedRequest) :
    drainQueue q = sortQueue q :=
  drainQueueAux_eq_sortQueue q.length q rfl

theorem drainQueue_perm (q : List QueuedRequest) : (drainQueue q).Perm q := by
  rw [drainQueue_eq_sortQueue]
  exact List.mergeSort_perm q _

/-! ### Claim theorems about the scheduler -/

/-- Counterexample to claim C6 as stated: with a retry budget of one, the
very first rate-limit rejection exhausts the budget — no budget-free retry
happens, the request fails with no sleep performed; and with a budget of
three, three persistent 429s produce exactly three executions, not four. -/
theorem first_rateLimit_consumes_budget :
    (executeRequest [AttemptOutcome.rateLimited none] 0).outcome =
      ExecOutcome.err (AttemptOutcome.rateLimited none) ∧
    (executeRequest [AttemptOutcome.rateLimited none] 0).executions = 1 ∧
    (executeRequest [AttemptOutcome.rateLimited none] 0).waits = [] ∧
    (executeRequest [AttemptOutcome.rateLimited none, AttemptOutcome.rateLimited none,
        AttemptOutcome.rateLimited none] 0).executions = 3 :=
  ⟨rfl, rfl, rfl, rfl⟩

/-- Claim C6 (amended): on a rate-limit rejection with budget remaining the
scheduler sleeps the upstream-provided delay (seconds, default 60) times
1000 plus a fixed 2000 ms buffer and retries; every rate-limit rejection,
the first included, consumes a retry budget slot like any other failure, so
a request is executed at most `maxRetries` times. -/
theorem rateLimitRetry_spec (h : Option Nat) (rest : List AttemptOutcome)
    (attempt counter : Nat) (hne : rest ≠ []) :
    (executeRequestAux counter attempt (AttemptOutcome.rateLimited h :: rest)).waits =
      (effectiveRetryAfter h * 1000 + 2000) ::
        (executeRequestAux counter (attempt + 1) rest).waits ∧
    (executeRequestAux counter attempt
        (AttemptOutcome.rateLimited h :: rest)).executions =
      (executeRequestAux counter (attempt + 1) rest).executions + 1 ∧
    (∀ (attempts : List AttemptOutcome) (c : Nat),
      (executeRequest attempts c).executions ≤ attempts.length) := by
  have hr : rest.isEmpty = false := by simpa using hne
  refine ⟨?_, ?_, ?_⟩
  · simp [executeRequestAux, hr]
  · simp [executeRequestAux, hr]
  · intro attempts c
    exact executeRequestAux_executions_le attempts 1 c

/-- Witness for C6 (amended): one pending 429 with `retry-after: 5` and a
success behind it — the trace sleeps 7000 ms, retries, and succeeds after
two executions. -/
theorem rateLimitRetry_spec_witness :
    (executeRequestAux 0 1
        [AttemptOutcome.rateLimited (some 5), AttemptOutcome.success]).waits =
      (effectiveRetryAfter (some 5) * 1000 + 2000) ::
        (executeRequestAux 0 2 [AttemptOutcome.success]).waits ∧
    (executeRequestAux 0 1
        [AttemptOutcome.rateLimited (some 5), AttemptOutcome.success]).executions =
      (executeRequestAux 0 2 [AttemptOutcome.success]).executions + 1 := by
  have h := rateLimitRetry_spec (some 5) [AttemptOutcome.success] 1 0 (by decide)
  exact ⟨h.1, h.2.1⟩

/-- Claim C7: a queued request with a retry budget of 3 whose executions all
fail is executed exactly 3 times (attempts = retriesLeft) and then rejected
with the terminal error; and the drain loop dispatches each queued item
exactly once (the item is shifted off the queue before execution and never
re-enqueued). -/
theorem retryExhaustion_spec (attempts : List AttemptOutcome) (counter : Nat)
    (hlen : attempts.length = 3)
    (hfail : ∀ o ∈ attempts, o ≠ AttemptOutcome.success) :
    (executeRequest attempts counter).executions = 3 ∧
    (∃ last, (executeRequest attempts counter).outcome = ExecOutcome.err last) ∧
    (∀ q : List QueuedRequest, (drainQueue q).Perm q) := by
  have hne : attempts ≠ [] := by
    intro hnil
    rw [hnil] at hlen
    simp at hlen
  have h := executeRequestAux_all_fail attempts 1 counter hne hfail
  exact ⟨by rw [executeRequest, h.1, hlen], h.2, drainQueue_perm⟩

/-- Witness for C7: three consecutive network failures. -/
theorem retryExhaustion_spec_witness :
    (executeRequest [AttemptOutcome.failure "boom", AttemptOutcome.failure "boom",
        AttemptOutcome.failure "boom"] 0).executions = 3 ∧
    (∃ last, (executeRequest [AttemptOutcome.failure "boom",
        AttemptOutcome.failure "boom", AttemptOutcome.failure "boom"] 0).outcome =
      ExecOutcome.err last) := by
  have h := retryExhaustion_spec [AttemptOutcome.failure "boom",
    AttemptOutcome.failure "boom", AttemptOutcome.failure "boom"] 0 rfl (by decide)
  exact ⟨h.1, h.2.1⟩

/-- Claim C8: the drain loop of `processQueue` dispatches pending requests
in non-increasing priority order, and requests of equal priority keep their
enqueue (FIFO) order — any equal-priority pair in queue order stays in that
order in the dispatch order. -/
theorem processQueue_order (q : List QueuedRequest) :
    (drainQueue q).Pairwise (fun a b => b.priority ≤ a.priority) ∧
    (∀ a b : QueuedRequest, a.priority = b.priority → [a, b].Sublist q →
      [a, b].Sublist (drainQueue q)) := by
  rw [drainQueue_eq_sortQueue]
  constructor
  · exact (sortQueue_sorted q).imp (fun hab => of_decide_eq_true hab)
  · intro a b hpr hsub
    exact List.pair_sublist_mergeSort queueLE_trans queueLE_total
      (decide_eq_true (le_of_eq hpr.symm)) hsub

/-- Witness for C8: two priority-1 requests enqueued around a priority-5
request keep their relative order in the dispatch order. -/
theorem processQueue_order_witness :
    [({ url := "a", priority := 1, timestamp := 0 } : QueuedRequest),
     { url := "b", priority := 1, timestamp := 2 }].Sublist
      (drainQueue [{ url := "a", priority := 1, timestamp := 0 },
        { url := "x", priority := 5, timestamp := 1 },
        { url := "b", priority := 1, timestamp := 2 }]) :=
  (processQueue_order [{ url := "a", priority := 1, timestamp := 0 },
      { url := "x", priority := 5, timestamp := 1 },
      { url := "b", priority := 1, timestamp := 2 }]).2
    { url := "a", priority := 1, timestamp := 0 }
    { url := "b", priority := 1, timestamp := 2 } rfl (by decide)

/-- Claim C9: with the per-minute window still open, `shouldWaitForRateLimit`
answers true exactly when `remaining ≤ limit * safetyBufferFraction` or the
per-minute counter has reached the safety-adjusted limit (limit minus the
floored safety buffer), and leaves the counter untouched. -/
theorem shouldWaitForRateLimit_spec (frac : ℚ) (info : RateLimitInfo)
    (counter : Nat) (minuteStart now : Int)
    (hwin : now - minuteStart < 60000) :
    ((shouldWaitForRateLimit frac info counter minuteStart now).1 = true ↔
      ((info.remaining : ℚ) ≤ (info.limit : ℚ) * frac ∨
        (counter : Int) ≥ info.limit - Int.floor ((info.limit : ℚ) * frac))) ∧
    (shouldWaitForRateLimit frac info counter minuteStart now).2.1 = counter := by
  have hres : ¬ (now - minuteStart ≥ 60000) := by omega
  constructor
  · simp only [shouldWaitForRateLimit, hres, if_false, Bool.or_eq_true,
      decide_eq_true_eq, ge_iff_le]
    rw [Int.le_floor]
  · simp [shouldWaitForRateLimit, hres]

/-- Witness for C9: limit 120, remaining 12, 10% buffer — remaining is
exactly at the buffer, so the predicate fires. -/
theorem shouldWaitForRateLimit_spec_witness :
    (0 : Int) - 0 < 60000 ∧
    (shouldWaitForRateLimit (1/10) ⟨120, 12, none, none⟩ 0 0 0).1 = true := by
  refine ⟨by norm_num, ?_⟩
  exact (shouldWaitForRateLimit_spec (1/10) ⟨120, 12, none, none⟩ 0 0 0
    (by norm_num)).1.mpr (Or.inl (by norm_num))

/-- Claim C10: `requestsThisMinute` is bumped exactly once per successful
execution of a request and never on a failed attempt (rate-limit rejections
included), and `updateRateLimitInfo` never modifies it (nor the window
start), so the local fallback window counts only successful upstream calls. -/
theorem requestsThisMinute_invariant :
    (∀ (headers : RateLimitHeaders) (now : Int) (st : ClientState),
      (updateRateLimitInfo headers now st).requestsThisMinute =
        st.requestsThisMinute ∧
      (updateRateLimitInfo headers now st).minuteStartTime = st.minuteStartTime) ∧
    (∀ (attempts : List AttemptOutcome) (attempt counter : Nat),
      (executeRequestAux counter attempt attempts).requestsThisMinute =
        counter + (if (executeRequestAux counter attempt attempts).outcome =
            ExecOutcome.ok then 1 else 0)) := by
  constructor
  · intro headers now st
    exact ⟨rfl, rfl⟩
  · intro attempts attempt counter
    exact executeRequestAux_counter attempts attempt counter

end MizuhoAlgolia
